import Mathlib

/-!
Verification of the response-audio playback scheduler of
gemini-live-compliment-mirror (src/components/MagicMirror.tsx).

The scheduler is the glue inside the live-session message handler
(MagicMirror.tsx, lines 100-140) together with the session start
(startMirror, line 63) and local teardown (stopMirror, lines 199-224).
Times and durations are modelled as rationals (the browser reports them
as seconds); AudioBufferSourceNode handles are modelled as natural-number
ids with an explicit browser-side status, and the event-driven completion
callback is modelled as an explicit transition.
-/

namespace MagicMirror

/-- App state enum, from src/types.ts. -/
inductive AppState where
  | IDLE
  | CONNECTING
  | ACTIVE
  | ERROR
deriving DecidableEq, Repr

/-- An output AudioContext as the scheduler sees it.  stopMirror calls
close() on it (MagicMirror.tsx line 217) but never nulls the ref, so a
closed context stays reachable through outputAudioContextRef. -/
structure AudioCtx where
  closed : Bool
deriving DecidableEq, Repr

/-- A decoded audio buffer; the scheduler only reads its duration
(MagicMirror.tsx line 126). -/
structure AudioBuffer where
  duration : ℚ
deriving DecidableEq, Repr

/-- Modelled from the spec: decodeAudio/decodeAudioData live in
src/utils/audioUtils.ts, which is not present under src/.  The spec says the
decoder "accepts an encoded audio payload plus target sample rate/channel
count, returns a playable buffer or fails with a decode error", so an encoded
chunk is abstracted by its decode outcome. -/
structure EncodedChunk where
  decoded : Option AudioBuffer
deriving DecidableEq, Repr

/-- Modelled from the spec: decoding yields a playable buffer or fails. -/
def decodeAudioData (c : EncodedChunk) : Option AudioBuffer :=
  c.decoded

/-- Browser-side status of an AudioBufferSourceNode created by the handler:
still scheduled or playing, finished naturally, or stopped by stop(). -/
inductive HandleStatus where
  | playing
  | ended
  | stopped
deriving DecidableEq, Repr

/-- The mutable refs of MagicMirror.tsx that the scheduler touches
(lines 26-39), plus browser-side bookkeeping of created source nodes
(handleStatus assigns each created id its status, nextId supplies fresh ids).
audioSources is the ActiveSourceSet, nextStartTime the PlaybackCursor. -/
structure MirrorState where
  outputCtx : Option AudioCtx
  nextStartTime : ℚ
  audioSources : List Nat
  hasStream : Bool
  hasInputCtx : Bool
  hasVideoInterval : Bool
  appState : AppState
  handleStatus : List (Nat × HandleStatus)
  nextId : Nat
deriving DecidableEq, Repr

/-- The parts of a LiveServerMessage the handler reads (lines 102 and 131):
presence of inline audio data, and the interrupted flag. -/
structure ServerMessage where
  audioData : Option EncodedChunk
  interrupted : Bool
deriving DecidableEq, Repr

/-- The audio branch of onmessage (lines 103-128).  Returns the new state and
the time the new source was started at (none when the chunk was dropped).
Mirrors the source: return early when outputAudioContextRef is null
(line 105), otherwise decode; on success set
nextStartTime = max(nextStartTime, ctx.currentTime) (line 115), create a
source, start it at nextStartTime (line 125), advance the cursor by the
buffer duration (line 126) and add the source to the set (line 127).
ctx.currentTime is passed in as now. -/
def enqueueChunk (now : ℚ) (chunk : EncodedChunk) (st : MirrorState) :
    MirrorState × Option ℚ :=
  match st.outputCtx with
  | none => (st, none)
  | some _ =>
    match decodeAudioData chunk with
    | none => (st, none)
    | some buf =>
      let startAt := max st.nextStartTime now
      let src := st.nextId
      ({ st with
          nextStartTime := startAt + buf.duration
          audioSources := src :: st.audioSources
          handleStatus := (src, HandleStatus.playing) :: st.handleStatus
          nextId := src + 1 },
        some startAt)

/-- Pointwise status update of the browser-side bookkeeping. -/
def updateStatus (f : Nat → HandleStatus → HandleStatus)
    (l : List (Nat × HandleStatus)) : List (Nat × HandleStatus) :=
  l.map fun p => (p.1, f p.1 p.2)

/-- AudioBufferSourceNode.stop(): on a node whose playback already finished
the call may raise, which is why the source wraps it in try/catch
(line 133); modelled as an error result on an ended node. -/
def stopSource (s : HandleStatus) : Except String HandleStatus :=
  match s with
  | HandleStatus.playing => Except.ok HandleStatus.stopped
  | HandleStatus.ended => Except.error "InvalidStateError"
  | HandleStatus.stopped => Except.ok HandleStatus.stopped

/-- try \x7b src.stop() \x7d catch (e) \x7b\x7d, line 133: a failing stop
leaves the node as it was and the loop continues. -/
def tryStopSource (s : HandleStatus) : HandleStatus :=
  match stopSource s with
  | Except.ok s2 => s2
  | Except.error _ => s

/-- The interruption branch of onmessage (lines 131-138): stop every source
in the set (best-effort, try/catch), clear the set, and reset the cursor to
ctx.currentTime when the output context ref is set. -/
def interrupt (now : ℚ) (st : MirrorState) : MirrorState :=
  { st with
    handleStatus := updateStatus
      (fun k s => if k ∈ st.audioSources then tryStopSource s else s)
      st.handleStatus
    audioSources := []
    nextStartTime := if st.outputCtx.isSome then now else st.nextStartTime }

/-- The forEach loop of lines 132-134 in the exception monad: each stop()
may raise and is caught by the per-element try/catch. -/
def stopAllE (sources : List Nat) :
    List (Nat × HandleStatus) → Except String (List (Nat × HandleStatus))
  | [] => Except.ok []
  | p :: rest =>
    match (if p.1 ∈ sources then
             match stopSource p.2 with
             | Except.ok s2 => Except.ok s2
             | Except.error _ => Except.ok p.2
           else Except.ok p.2) with
    | Except.error e => Except.error e
    | Except.ok s2 =>
      match stopAllE sources rest with
      | Except.error e => Except.error e
      | Except.ok rest2 => Except.ok ((p.1, s2) :: rest2)

/-- The interruption branch with exceptions made explicit, to state that it
never raises. -/
def interruptE (now : ℚ) (st : MirrorState) : Except String MirrorState :=
  match stopAllE st.audioSources st.handleStatus with
  | Except.error e => Except.error e
  | Except.ok l =>
    Except.ok { st with
      handleStatus := l
      audioSources := []
      nextStartTime := if st.outputCtx.isSome then now else st.nextStartTime }

/-- The browser fires an ended event on a source whose playback finishes; the
listener registered at lines 121-123 deletes the source from the set.  A
source that was still playing is marked ended by the browser. -/
def sourceEnded (h : Nat) (st : MirrorState) : MirrorState :=
  { st with
    handleStatus := updateStatus
      (fun k s =>
        if k = h ∧ s = HandleStatus.playing then HandleStatus.ended else s)
      st.handleStatus
    audioSources := st.audioSources.erase h }

/-- The onmessage callback (lines 100-140): the audio branch runs first when
inline audio data is present, then the interruption branch when the
interrupted flag is set.  Only scheduler state is modelled (the volume-level
visualization at lines 108-109 is React display state). -/
def onmessage (now : ℚ) (msg : ServerMessage) (st : MirrorState) : MirrorState :=
  let st1 :=
    match msg.audioData with
    | some chunk => (enqueueChunk now chunk st).1
    | none => st
  if msg.interrupted then interrupt now st1 else st1

/-- startMirror's effect on the modelled refs (lines 42-64): acquire the
media stream, create fresh open audio contexts, reset the cursor to the new
output context's currentTime (line 63), start the video interval, and move
the app state to CONNECTING (line 44). -/
def startSession (now : ℚ) (st : MirrorState) : MirrorState :=
  { st with
    outputCtx := some { closed := false }
    nextStartTime := now
    hasStream := true
    hasInputCtx := true
    hasVideoInterval := true
    appState := AppState.CONNECTING }

/-- The local teardown steps performed by stopMirror (lines 199-224). -/
inductive TeardownAction where
  | closeRemoteSession
  | stopMediaTracks
  | closeInputCtx
  | closeOutputCtx
  | clearVideoInterval
  | setStateIdle
  | resetVolumeLevel
deriving DecidableEq, Repr

/-- stopMirror (lines 199-224): stops media tracks and nulls streamRef
(lines 210-213), closes the input and output audio contexts while keeping
their refs (lines 216-217), clears the video interval while keeping its ref
(line 220), and resets app state and volume (lines 222-223).  The session
block at lines 201-207 is an empty if statement with comments only.  Returns
the new state and the list of performed actions. -/
def stopMirror (st : MirrorState) : MirrorState × List TeardownAction :=
  let a1 := if st.hasStream then [TeardownAction.stopMediaTracks] else []
  let a2 := if st.hasInputCtx then [TeardownAction.closeInputCtx] else []
  let a3 := if st.outputCtx.isSome then [TeardownAction.closeOutputCtx] else []
  let a4 := if st.hasVideoInterval then [TeardownAction.clearVideoInterval] else []
  ({ st with
      hasStream := false
      outputCtx := st.outputCtx.map fun _ => { closed := true }
      appState := AppState.IDLE },
    a1 ++ a2 ++ a3 ++ a4 ++
      [TeardownAction.setStateIdle, TeardownAction.resetVolumeLevel])

/-- Events the scheduler state reacts to. -/
inductive MirrorOp where
  | start (now : ℚ)
  | message (now : ℚ) (msg : ServerMessage)
  | ended (h : Nat)
  | stop
deriving Repr

def applyOp (op : MirrorOp) (st : MirrorState) : MirrorState :=
  match op with
  | MirrorOp.start now => startSession now st
  | MirrorOp.message now msg => onmessage now msg st
  | MirrorOp.ended h => sourceEnded h st
  | MirrorOp.stop => (stopMirror st).1

def run (ops : List MirrorOp) (st : MirrorState) : MirrorState :=
  match ops with
  | [] => st
  | op :: rest => run rest (applyOp op st)

/-- The refs at component mount (lines 26-39): null contexts, cursor 0,
empty source set. -/
def initState : MirrorState :=
  { outputCtx := none
    nextStartTime := 0
    audioSources := []
    hasStream := false
    hasInputCtx := false
    hasVideoInterval := false
    appState := AppState.IDLE
    handleStatus := []
    nextId := 0 }

/-- Run the audio branch over a list of (arrival time, duration) chunks,
collecting the start times of the scheduled sources. -/
def runChunks (st : MirrorState) : List (ℚ × ℚ) → MirrorState × List ℚ
  | [] => (st, [])
  | c :: rest =>
    match enqueueChunk c.1 { decoded := some { duration := c.2 } } st with
    | (st2, none) => runChunks st2 rest
    | (st2, some s) =>
      let r := runChunks st2 rest
      (r.1, s :: r.2)

/-- Each chunk arrives no later than the cursor current at its enqueue, with
a nonnegative duration (arrival condition of the gapless property). -/
def onTimeB : ℚ → List (ℚ × ℚ) → Bool
  | _, [] => true
  | c, x :: rest => decide (x.1 ≤ c) && decide (0 ≤ x.2) && onTimeB (c + x.2) rest

/-- The start times the gapless property predicts: each chunk starts where
the previous one ended. -/
def expectedStarts : ℚ → List ℚ → List ℚ
  | _, [] => []
  | c, d :: ds => c :: expectedStarts (c + d) ds

/-! ### Basic lemmas about the audio branch -/

theorem enqueueChunk_outputCtx (now : ℚ) (chunk : EncodedChunk) (st : MirrorState) :
    ((enqueueChunk now chunk st).1).outputCtx = st.outputCtx := by
  rcases hc : st.outputCtx with _ | c <;>
    rcases hd : decodeAudioData chunk with _ | b <;>
      simp [enqueueChunk, hc, hd]

theorem enqueueChunk_success (now : ℚ) (chunk : EncodedChunk) (st : MirrorState)
    (c : AudioCtx) (buf : AudioBuffer)
    (hc : st.outputCtx = some c) (hd : decodeAudioData chunk = some buf) :
    enqueueChunk now chunk st =
      ({ st with
          nextStartTime := max st.nextStartTime now + buf.duration
          audioSources := st.nextId :: st.audioSources
          handleStatus := (st.nextId, HandleStatus.playing) :: st.handleStatus
          nextId := st.nextId + 1 },
        some (max st.nextStartTime now)) := by
  simp [enqueueChunk, hc, hd]

/-- The spec's section-8 example: chunk A (duration 1) enqueued at time 0 is
scheduled at 0, chunk B (duration 1/2) enqueued at time 1/5 is scheduled at
1 (not 1/5), and the cursor ends at 3/2. -/
theorem spec_example_two_chunks :
    (runChunks (startSession 0 initState) [(0, 1), (1/5, 1/2)]).2 = [0, 1] ∧
    (runChunks (startSession 0 initState)
      [(0, 1), (1/5, 1/2)]).1.nextStartTime = 3/2 := by
  constructor <;>
    norm_num [runChunks, enqueueChunk, decodeAudioData, startSession, initState]

/-- C2: a chunk arriving strictly after the cursor starts at its arrival
time, not at the stale cursor. -/
theorem C2_late_arrival_catch_up (now : ℚ) (chunk : EncodedChunk)
    (st : MirrorState) (c : AudioCtx) (buf : AudioBuffer)
    (hc : st.outputCtx = some c) (hd : decodeAudioData chunk = some buf)
    (hlate : st.nextStartTime < now) :
    (enqueueChunk now chunk st).2 = some now := by
  simp [enqueueChunk, hc, hd, max_eq_right (le_of_lt hlate)]

/-- A session state whose cursor has fallen behind the clock: the output
context is open and the cursor sits at 1 while the clock reads 2. -/
def staleCursorState : MirrorState :=
  { initState with outputCtx := some { closed := false }, nextStartTime := 1 }

theorem C2_witness :
    staleCursorState.nextStartTime < 2 ∧
    (enqueueChunk 2 { decoded := some { duration := 1 } } staleCursorState).2 =
      some 2 :=
  ⟨by norm_num [staleCursorState, initState],
    C2_late_arrival_catch_up 2 { decoded := some { duration := 1 } }
      staleCursorState { closed := false } { duration := 1 } rfl rfl
      (by norm_num [staleCursorState, initState])⟩

/-- C5 (code bug evidence): stopMirror closes the output context but never
nulls outputAudioContextRef (line 217 nulls nothing), so the guard at
line 105 does not fire after teardown and a later audio message still
advances the cursor and schedules a source on the closed context. -/
theorem C5_enqueue_after_teardown_mutates :
    ((stopMirror (startSession 0 initState)).1.outputCtx ≠ none) ∧
    ((stopMirror (startSession 0 initState)).1.nextStartTime = 0) ∧
    ((enqueueChunk 1 { decoded := some { duration := 1 } }
        (stopMirror (startSession 0 initState)).1).1.nextStartTime = 2) ∧
    ((enqueueChunk 1 { decoded := some { duration := 1 } }
        (stopMirror (startSession 0 initState)).1).2 = some 1) ∧
    ((enqueueChunk 1 { decoded := some { duration := 1 } }
        (stopMirror (startSession 0 initState)).1).1.audioSources = [0]) := by
  refine ⟨by simp [stopMirror, startSession, initState], ?_⟩
  norm_num [stopMirror, startSession, initState, enqueueChunk, decodeAudioData]

/-- C6: a chunk whose decode fails is dropped with no state change, and the
message handler returns normally (the scheduler continues). -/
theorem C6_decode_failure_absorbed (now : ℚ) (chunk : EncodedChunk)
    (st : MirrorState) (hfail : decodeAudioData chunk = none) :
    enqueueChunk now chunk st = (st, none) ∧
    onmessage now { audioData := some chunk, interrupted := false } st = st := by
  have h1 : enqueueChunk now chunk st = (st, none) := by
    rcases hc : st.outputCtx with _ | c <;> simp [enqueueChunk, hc, hfail]
  exact ⟨h1, by simp [onmessage, h1]⟩

theorem C6_witness :
    decodeAudioData { decoded := none } = none ∧
    enqueueChunk 3 { decoded := none } (startSession 0 initState) =
      (startSession 0 initState, none) :=
  ⟨rfl, (C6_decode_failure_absorbed 3 { decoded := none }
    (startSession 0 initState) rfl).1⟩

/-- C10: a message with no inline audio and no interrupted flag leaves the
whole scheduler state unchanged. -/
theorem C10_no_audio_no_interrupt_frame (now : ℚ) (msg : ServerMessage)
    (st : MirrorState) (h1 : msg.audioData = none)
    (h2 : msg.interrupted = false) :
    onmessage now msg st = st := by
  simp [onmessage, h1, h2]

theorem C10_witness :
    onmessage 7 { audioData := none, interrupted := false }
      (startSession 0 initState) = startSession 0 initState :=
  C10_no_audio_no_interrupt_frame 7 { audioData := none, interrupted := false }
    (startSession 0 initState) rfl rfl

/-! ### The interruption branch -/

theorem interrupt_audioSources (now : ℚ) (st : MirrorState) :
    (interrupt now st).audioSources = [] := rfl

theorem interrupt_outputCtx (now : ℚ) (st : MirrorState) :
    (interrupt now st).outputCtx = st.outputCtx := rfl

theorem interrupt_nextStartTime_of_isSome (now : ℚ) (st : MirrorState)
    (h : st.outputCtx.isSome = true) : (interrupt now st).nextStartTime = now := by
  simp [interrupt, h]

theorem stopAllE_ok (sources : List Nat) (l : List (Nat × HandleStatus)) :
    stopAllE sources l =
      Except.ok (updateStatus
        (fun k s => if k ∈ sources then tryStopSource s else s) l) := by
  induction l with
  | nil => rfl
  | cons p rest ih =>
    by_cases h : p.1 ∈ sources
    · cases hs : stopSource p.2 with
      | ok s2 => simp [stopAllE, h, hs, ih, updateStatus, tryStopSource]
      | error e => simp [stopAllE, h, hs, ih, updateStatus, tryStopSource]
    · simp [stopAllE, h, ih, updateStatus]

/-- C3: after a message carrying the interrupted flag, the source set is
empty and the cursor equals the output clock's time at the interruption,
however many chunks were scheduled or playing. -/
theorem C3_interrupt_postcondition (now : ℚ) (msg : ServerMessage)
    (st : MirrorState) (hctx : st.outputCtx.isSome = true)
    (hint : msg.interrupted = true) :
    (onmessage now msg st).audioSources = [] ∧
    (onmessage now msg st).nextStartTime = now := by
  have h1 : (match msg.audioData with
      | some chunk => (enqueueChunk now chunk st).1
      | none => st).outputCtx = st.outputCtx := by
    cases msg.audioData with
    | none => rfl
    | some c => exact enqueueChunk_outputCtx now c st
  simp only [onmessage, hint, if_true]
  exact ⟨rfl, by simp [interrupt, h1, hctx]⟩

/-- The state of the spec's section-8 interruption example just before the
interrupt: chunk A of duration 1 was enqueued at time 0. -/
def exampleAState : MirrorState :=
  onmessage 0
    { audioData := some { decoded := some { duration := 1 } }, interrupted := false }
    (startSession 0 initState)

theorem C3_witness :
    (onmessage (3/10) { audioData := none, interrupted := true }
        exampleAState).audioSources = [] ∧
    (onmessage (3/10) { audioData := none, interrupted := true }
        exampleAState).nextStartTime = 3/10 :=
  C3_interrupt_postcondition (3/10) { audioData := none, interrupted := true }
    exampleAState (by simp [exampleAState, onmessage, enqueueChunk,
      decodeAudioData, startSession, initState]) rfl

/-- C4: the interruption branch never raises (each stop() is wrapped in
try/catch), even though stop() on a naturally finished source errors; it
empties the set, resets the cursor, and a decodable chunk enqueued right
after is scheduled again. -/
theorem C4_interrupt_total_nonthrowing (now : ℚ) (st : MirrorState) :
    interruptE now st = Except.ok (interrupt now st) ∧
    (interrupt now st).audioSources = [] ∧
    (st.outputCtx.isSome = true → (interrupt now st).nextStartTime = now) ∧
    (∀ now2 chunk buf c, st.outputCtx = some c →
      decodeAudioData chunk = some buf →
      (enqueueChunk now2 chunk (interrupt now st)).2 =
        some (max (interrupt now st).nextStartTime now2)) ∧
    stopSource HandleStatus.ended = Except.error "InvalidStateError" := by
  refine ⟨?_, rfl, interrupt_nextStartTime_of_isSome now st, ?_, rfl⟩
  · simp [interruptE, interrupt, stopAllE_ok]
  · intro now2 chunk buf c hc hd
    have hc2 : (interrupt now st).outputCtx = some c := by
      rw [interrupt_outputCtx, hc]
    rw [enqueueChunk_success now2 chunk (interrupt now st) c buf hc2 hd]

/-- A state holding both a naturally finished source (id 0, for which
stop() errors) and a playing one (id 1). -/
def endedHandleState : MirrorState :=
  { initState with
    outputCtx := some { closed := false }
    nextStartTime := 5
    audioSources := [0, 1]
    handleStatus := [(0, HandleStatus.ended), (1, HandleStatus.playing)]
    nextId := 2 }

theorem C4_witness :
    interruptE 3 endedHandleState = Except.ok (interrupt 3 endedHandleState) ∧
    (interrupt 3 endedHandleState).audioSources = [] ∧
    (interrupt 3 endedHandleState).nextStartTime = 3 :=
  ⟨(C4_interrupt_total_nonthrowing 3 endedHandleState).1,
    (C4_interrupt_total_nonthrowing 3 endedHandleState).2.1,
    (C4_interrupt_total_nonthrowing 3 endedHandleState).2.2.1 rfl⟩

/-! ### The playback cursor -/

/-- C7: the cursor never moves backward on the audio branch, is reset to the
clock on interruption and on session start, and is untouched by source
completion and by teardown. -/
theorem C7_cursor_invariant :
    (∀ now chunk st,
      (∀ buf, decodeAudioData chunk = some buf → 0 ≤ buf.duration) →
      st.nextStartTime ≤ ((enqueueChunk now chunk st).1).nextStartTime) ∧
    (∀ now st, st.outputCtx.isSome = true →
      (interrupt now st).nextStartTime = now) ∧
    (∀ now st, (startSession now st).nextStartTime = now) ∧
    (∀ h st, (sourceEnded h st).nextStartTime = st.nextStartTime) ∧
    (∀ st, (stopMirror st).1.nextStartTime = st.nextStartTime) := by
  refine ⟨?_, fun now st h => interrupt_nextStartTime_of_isSome now st h,
    fun now st => rfl, fun h st => rfl, fun st => rfl⟩
  intro now chunk st hdur
  rcases hc : st.outputCtx with _ | c
  · simp [enqueueChunk, hc]
  · rcases hd : decodeAudioData chunk with _ | buf
    · simp [enqueueChunk, hc, hd]
    · rw [enqueueChunk_success now chunk st c buf hc hd]
      exact le_trans (le_max_left _ _)
        (le_add_of_nonneg_right (hdur buf hd))

theorem C7_witness :
    staleCursorState.nextStartTime ≤
      ((enqueueChunk 2 { decoded := some { duration := 1 } }
        staleCursorState).1).nextStartTime :=
  C7_cursor_invariant.1 2 { decoded := some { duration := 1 } } staleCursorState
    (by intro buf hb; cases hb; norm_num)

/-! ### Local-only teardown -/

/-- C9: stopMirror performs only local teardown: it never emits a remote
session termination, every action it takes is one of the local cleanup
steps, and it resets the app state to IDLE. -/
theorem C9_local_only_teardown (st : MirrorState) :
    TeardownAction.closeRemoteSession ∉ (stopMirror st).2 ∧
    (∀ a ∈ (stopMirror st).2,
      a = TeardownAction.stopMediaTracks ∨ a = TeardownAction.closeInputCtx ∨
      a = TeardownAction.closeOutputCtx ∨
      a = TeardownAction.clearVideoInterval ∨
      a = TeardownAction.setStateIdle ∨
      a = TeardownAction.resetVolumeLevel) ∧
    (stopMirror st).1.appState = AppState.IDLE ∧
    (st.hasStream = true →
      TeardownAction.stopMediaTracks ∈ (stopMirror st).2) ∧
    (st.hasInputCtx = true →
      TeardownAction.closeInputCtx ∈ (stopMirror st).2) ∧
    (st.outputCtx.isSome = true →
      TeardownAction.closeOutputCtx ∈ (stopMirror st).2) ∧
    (st.hasVideoInterval = true →
      TeardownAction.clearVideoInterval ∈ (stopMirror st).2) ∧
    TeardownAction.setStateIdle ∈ (stopMirror st).2 := by
  by_cases h1 : st.hasStream <;> by_cases h2 : st.hasInputCtx <;>
    by_cases h3 : st.outputCtx.isSome <;> by_cases h4 : st.hasVideoInterval <;>
      simp [stopMirror, h1, h2, h3, h4]

theorem C9_witness :
    TeardownAction.closeRemoteSession ∉
      (stopMirror (startSession 0 initState)).2 ∧
    (stopMirror (startSession 0 initState)).1.appState = AppState.IDLE ∧
    TeardownAction.closeOutputCtx ∈ (stopMirror (startSession 0 initState)).2 :=
  ⟨(C9_local_only_teardown (startSession 0 initState)).1,
    (C9_local_only_teardown (startSession 0 initState)).2.2.1,
    (C9_local_only_teardown (startSession 0 initState)).2.2.2.2.2.1 rfl⟩

/-! ### Gapless scheduling -/

theorem expectedStarts_length (c : ℚ) (ds : List ℚ) :
    (expectedStarts c ds).length = ds.length := by
  induction ds generalizing c with
  | nil => rfl
  | cons d ds ih => simp [expectedStarts, ih]

theorem expectedStarts_getD_succ (ds : List ℚ) (c : ℚ) (i : Nat)
    (h : i + 1 < (expectedStarts c ds).length) :
    (expectedStarts c ds).getD (i + 1) 0 =
      (expectedStarts c ds).getD i 0 + ds.getD i 0 := by
  induction ds generalizing c i with
  | nil => simp [expectedStarts] at h
  | cons d ds ih =>
    cases i with
    | zero =>
      cases ds with
      | nil => simp [expectedStarts, expectedStarts_length] at h
      | cons d2 ds2 => simp [expectedStarts]
    | succ j =>
      simp only [expectedStarts, List.getD_cons_succ]
      apply ih
      have : j + 1 + 1 < (expectedStarts c (d :: ds)).length := h
      simpa [expectedStarts, expectedStarts_length] using this

theorem onTimeB_nonneg (l : List (ℚ × ℚ)) (c : ℚ) (h : onTimeB c l = true) :
    ∀ d ∈ l.map Prod.snd, 0 ≤ d := by
  induction l generalizing c with
  | nil => simp
  | cons x rest ih =>
    simp only [onTimeB, Bool.and_eq_true, decide_eq_true_eq] at h
    obtain ⟨⟨h1, h2⟩, h3⟩ := h
    intro d hd
    rcases List.mem_cons.mp hd with hd | hd
    · exact hd ▸ h2
    · exact ih (c + x.2) h3 d hd

theorem runChunks_starts (chunks : List (ℚ × ℚ)) (st : MirrorState)
    (c : AudioCtx) (hc : st.outputCtx = some c)
    (ht : onTimeB st.nextStartTime chunks = true) :
    (runChunks st chunks).2 =
      expectedStarts st.nextStartTime (chunks.map Prod.snd) := by
  induction chunks generalizing st with
  | nil => rfl
  | cons x rest ih =>
    obtain ⟨now, d⟩ := x
    simp only [onTimeB, Bool.and_eq_true, decide_eq_true_eq] at ht
    obtain ⟨⟨h1, h2⟩, h3⟩ := ht
    have hs := enqueueChunk_success now { decoded := some { duration := d } }
      st c { duration := d } hc rfl
    have hmax : max st.nextStartTime now = st.nextStartTime := max_eq_left h1
    rw [hmax] at hs
    simp only [runChunks, hs, expectedStarts, List.map]
    exact congrArg (List.cons st.nextStartTime) (ih _ hc h3)

/-- C1: for chunks that each arrive no later than the cursor, every enqueue
schedules at max(cursor, now), advances the cursor by the buffer duration,
and the resulting start times are gapless (each start is the previous start
plus the previous duration) and in arrival order. -/
theorem C1_gapless_scheduling (st : MirrorState) (c : AudioCtx)
    (chunks : List (ℚ × ℚ)) (hc : st.outputCtx = some c)
    (ht : onTimeB st.nextStartTime chunks = true) :
    (runChunks st chunks).2 =
      expectedStarts st.nextStartTime (chunks.map Prod.snd) ∧
    (∀ i, i + 1 < (runChunks st chunks).2.length →
      (runChunks st chunks).2.getD (i + 1) 0 =
        (runChunks st chunks).2.getD i 0 + (chunks.map Prod.snd).getD i 0) ∧
    (∀ i, i + 1 < (runChunks st chunks).2.length →
      (runChunks st chunks).2.getD i 0 ≤ (runChunks st chunks).2.getD (i + 1) 0) ∧
    (∀ now2 chunk buf st2, st2.outputCtx = some c →
      decodeAudioData chunk = some buf →
      (enqueueChunk now2 chunk st2).2 = some (max st2.nextStartTime now2) ∧
      ((enqueueChunk now2 chunk st2).1).nextStartTime =
        max st2.nextStartTime now2 + buf.duration) := by
  have hst := runChunks_starts chunks st c hc ht
  refine ⟨hst, ?_, ?_, ?_⟩
  · intro i hi
    rw [hst] at hi ⊢
    exact expectedStarts_getD_succ (chunks.map Prod.snd) st.nextStartTime i hi
  · intro i hi
    have hrec : (runChunks st chunks).2.getD (i + 1) 0 =
        (runChunks st chunks).2.getD i 0 + (chunks.map Prod.snd).getD i 0 := by
      rw [hst] at hi ⊢
      exact expectedStarts_getD_succ (chunks.map Prod.snd) st.nextStartTime i hi
    have hlen : i < (chunks.map Prod.snd).length := by
      rw [hst, expectedStarts_length] at hi
      omega
    have hnn : 0 ≤ (chunks.map Prod.snd).getD i 0 := by
      rw [List.getD_eq_getElem _ _ hlen]
      exact onTimeB_nonneg chunks st.nextStartTime ht _
        (List.getElem_mem hlen)
    rw [hrec]
    exact le_add_of_nonneg_right hnn
  · intro now2 chunk buf st2 hc2 hd2
    rw [enqueueChunk_success now2 chunk st2 c buf hc2 hd2]
    exact ⟨rfl, rfl⟩

theorem C1_witness :
    (runChunks (startSession 0 initState) [(0, 1), (1/5, 1/2)]).2 =
      expectedStarts 0 [1, 1/2] :=
  (C1_gapless_scheduling (startSession 0 initState) { closed := false }
    [(0, 1), (1/5, 1/2)] rfl
    (by norm_num [onTimeB, startSession, initState])).1

/-! ### The ActiveSourceSet invariant -/

/-- Every source in the set is started and still scheduled-or-playing. -/
def Inv (st : MirrorState) : Prop :=
  ∀ h ∈ st.audioSources, st.handleStatus.lookup h = some HandleStatus.playing

/-- Well-formedness carried through every operation: created ids are below
the fresh-id supply, the set holds no duplicates, and Inv. -/
def WF (st : MirrorState) : Prop :=
  (∀ p ∈ st.handleStatus, p.1 < st.nextId) ∧ st.audioSources.Nodup ∧ Inv st

theorem lookup_updateStatus (f : Nat → HandleStatus → HandleStatus)
    (l : List (Nat × HandleStatus)) (k : Nat) :
    (updateStatus f l).lookup k = (l.lookup k).map (f k) := by
  induction l with
  | nil => rfl
  | cons p rest ih =>
    by_cases h : k = p.1
    · subst h; simp [updateStatus, List.lookup]
    · simp only [updateStatus, List.map_cons, List.lookup, beq_false_of_ne h]
      exact ih

theorem lookup_some_key_mem {l : List (Nat × HandleStatus)} {k : Nat}
    {v : HandleStatus} (h : l.lookup k = some v) : k ∈ l.map Prod.fst := by
  induction l with
  | nil => simp [List.lookup] at h
  | cons p rest ih =>
    by_cases hk : k = p.1
    · simp [hk]
    · rw [List.lookup, beq_false_of_ne hk] at h
      exact List.mem_cons_of_mem _ (ih h)

theorem sources_lt_nextId (st : MirrorState) (hwf : WF st) :
    ∀ h ∈ st.audioSources, h < st.nextId := by
  intro h hm
  obtain ⟨hfresh, _, hinv⟩ := hwf
  obtain ⟨p, hp, hpk⟩ := List.mem_map.mp (lookup_some_key_mem (hinv h hm))
  exact hpk ▸ hfresh p hp

theorem wf_enqueueChunk (now : ℚ) (chunk : EncodedChunk) (st : MirrorState)
    (hwf : WF st) : WF (enqueueChunk now chunk st).1 := by
  rcases hc : st.outputCtx with _ | c
  · simpa only [enqueueChunk, hc] using hwf
  rcases hd : decodeAudioData chunk with _ | buf
  · simpa only [enqueueChunk, hc, hd] using hwf
  rw [enqueueChunk_success now chunk st c buf hc hd]
  obtain ⟨hfresh, hnodup, hinv⟩ := hwf
  have hlt := sources_lt_nextId st ⟨hfresh, hnodup, hinv⟩
  refine ⟨?_, ?_, ?_⟩
  · intro p hp
    rcases List.mem_cons.mp hp with hp | hp
    · subst hp; exact Nat.lt_succ_self _
    · exact Nat.lt_succ_of_lt (hfresh p hp)
  · refine List.nodup_cons.mpr ⟨?_, hnodup⟩
    intro hmem
    exact absurd (hlt _ hmem) (lt_irrefl _)
  · intro h hm
    rcases List.mem_cons.mp hm with hm | hm
    · subst hm; simp [List.lookup]
    · have hne : h ≠ st.nextId := Nat.ne_of_lt (hlt h hm)
      rw [List.lookup, beq_false_of_ne hne]
      exact hinv h hm

theorem wf_sourceEnded (h : Nat) (st : MirrorState) (hwf : WF st) :
    WF (sourceEnded h st) := by
  obtain ⟨hfresh, hnodup, hinv⟩ := hwf
  refine ⟨?_, hnodup.erase h, ?_⟩
  · intro p hp
    obtain ⟨q, hq, hqe⟩ :=
      List.mem_map.mp (by simpa only [sourceEnded, updateStatus] using hp)
    rw [← hqe]
    exact hfresh q hq
  · intro h2 hm
    have hm2 := hnodup.mem_erase_iff.mp hm
    show (updateStatus
      (fun k s =>
        if k = h ∧ s = HandleStatus.playing then HandleStatus.ended else s)
      st.handleStatus).lookup h2 = some HandleStatus.playing
    rw [lookup_updateStatus, hinv h2 hm2.2]
    simp [hm2.1]

theorem wf_interrupt (now : ℚ) (st : MirrorState) (hwf : WF st) :
    WF (interrupt now st) := by
  obtain ⟨hfresh, hnodup, hinv⟩ := hwf
  refine ⟨?_, List.nodup_nil, ?_⟩
  · intro p hp
    obtain ⟨q, hq, hqe⟩ :=
      List.mem_map.mp (by simpa only [interrupt, updateStatus] using hp)
    rw [← hqe]
    exact hfresh q hq
  · intro h2 hm
    exact absurd hm (List.not_mem_nil h2)

theorem wf_onmessage (now : ℚ) (msg : ServerMessage) (st : MirrorState)
    (hwf : WF st) : WF (onmessage now msg st) := by
  have h1 : WF (match msg.audioData with
      | some chunk => (enqueueChunk now chunk st).1
      | none => st) := by
    cases msg.audioData with
    | none => exact hwf
    | some chunk => exact wf_enqueueChunk now chunk st hwf
  cases hi : msg.interrupted with
  | true =>
    simp only [onmessage, hi, if_true]
    exact wf_interrupt now _ h1
  | false =>
    simpa only [onmessage, hi, Bool.false_eq_true, if_false] using h1

theorem wf_startSession (now : ℚ) (st : MirrorState) (hwf : WF st) :
    WF (startSession now st) := hwf

theorem wf_stopMirror (st : MirrorState) (hwf : WF st) :
    WF (stopMirror st).1 := hwf

theorem wf_applyOp (op : MirrorOp) (st : MirrorState) (hwf : WF st) :
    WF (applyOp op st) := by
  cases op with
  | start now => exact wf_startSession now st hwf
  | message now msg => exact wf_onmessage now msg st hwf
  | ended h => exact wf_sourceEnded h st hwf
  | stop => exact wf_stopMirror st hwf

theorem wf_initState : WF initState :=
  ⟨fun p hp => absurd hp (List.not_mem_nil p), List.nodup_nil,
    fun h hm => absurd hm (List.not_mem_nil h)⟩

theorem wf_run (ops : List MirrorOp) (st : MirrorState) (hwf : WF st) :
    WF (run ops st) := by
  induction ops generalizing st with
  | nil => exact hwf
  | cons op rest ih => exact ih _ (wf_applyOp op st hwf)

/-- C8: after any sequence of operations from the initial state, every
source in the set is still scheduled-or-playing (started, not finished, not
stopped); a source leaves the set exactly through its completion listener or
through an interruption, and the audio branch never removes one. -/
theorem C8_active_source_set_invariant (ops : List MirrorOp) :
    (∀ h ∈ (run ops initState).audioSources,
      (run ops initState).handleStatus.lookup h = some HandleStatus.playing) ∧
    (∀ h, h ∉ (sourceEnded h (run ops initState)).audioSources) ∧
    (∀ now, (interrupt now (run ops initState)).audioSources = []) ∧
    (∀ now msg, msg.interrupted = false →
      ∀ h ∈ (run ops initState).audioSources,
        h ∈ (onmessage now msg (run ops initState)).audioSources) := by
  obtain ⟨hfresh, hnodup, hinv⟩ := wf_run ops initState wf_initState
  refine ⟨hinv, ?_, fun now => rfl, ?_⟩
  · intro h
    exact hnodup.not_mem_erase
  · intro now msg hmi h hm
    have h1 : h ∈ (match msg.audioData with
        | some chunk => (enqueueChunk now chunk (run ops initState)).1
        | none => run ops initState).audioSources := by
      cases msg.audioData with
      | none => exact hm
      | some chunk =>
        show h ∈ ((enqueueChunk now chunk (run ops initState)).1).audioSources
        rcases hc : (run ops initState).outputCtx with _ | c
        · simpa only [enqueueChunk, hc] using hm
        · rcases hd : decodeAudioData chunk with _ | buf
          · simpa only [enqueueChunk, hc, hd] using hm
          · rw [enqueueChunk_success now chunk (run ops initState) c buf hc hd]
            exact List.mem_cons_of_mem _ hm
    simpa only [onmessage, hmi, Bool.false_eq_true, if_false] using h1

theorem C8_witness :
    (run [MirrorOp.start 0,
      MirrorOp.message 0
        { audioData := some { decoded := some { duration := 1 } },
          interrupted := false }] initState).handleStatus.lookup 0 =
      some HandleStatus.playing ∧
    0 ∉ (sourceEnded 0 (run [MirrorOp.start 0,
      MirrorOp.message 0
        { audioData := some { decoded := some { duration := 1 } },
          interrupted := false }] initState)).audioSources :=
  ⟨(C8_active_source_set_invariant _).1 0
      (by norm_num [run, applyOp, onmessage, enqueueChunk, decodeAudioData,
        startSession, initState]),
    (C8_active_source_set_invariant _).2.1 0⟩

end MagicMirror
